import Mathlib

/-!
Verification of the ReQue request-tracking application.

The definitions below are a shallow embedding of the repository's code:
the client-side permissions hook (`src/hooks/use-permissions.ts`), the
row-level-security policies and triggers of the database migrations
(`create auth tables` and `create request tables` migrations, plus the
`fix_profile_creation_rls_policies` migration), and the UI gating and
form logic of the request pages.
-/

namespace ReQue

/-- The `user_role` Postgres enum and the `UserRole` TypeScript union:
admin, team_member, user, guest. -/
inductive UserRole
  | admin
  | team_member
  | user
  | guest
deriving DecidableEq, Repr

/-- The `request_status` Postgres enum and the `RequestStatus` TypeScript
union: new, in_progress, under_review, completed, rejected. -/
inductive RequestStatus
  | new
  | in_progress
  | under_review
  | completed
  | rejected
deriving DecidableEq, Repr

/-- The `request_priority` Postgres enum and the `RequestPriority`
TypeScript union: normal, high, urgent. -/
inductive RequestPriority
  | normal
  | high
  | urgent
deriving DecidableEq, Repr

/-- User identifiers (uuids) are modelled as strings. -/
abbrev UserId := String

/-- A row of the `profiles` table (the fields the policies and the hook
read; timestamps omitted). -/
structure Profile where
  id : UserId
  email : String
  full_name : Option String
  avatar_url : Option String
  role : UserRole
deriving DecidableEq, Repr

/-- A row of the `requests` table (timestamps omitted). -/
structure RequestRow where
  id : String
  title : String
  description : Option String
  status : RequestStatus
  priority : RequestPriority
  due_date : Option String
  created_by : UserId
  assigned_to : Option UserId
deriving DecidableEq, Repr

/-- A row of the `request_comments` table (timestamps omitted). -/
structure CommentRow where
  id : String
  request_id : String
  user_id : UserId
  comment_text : String
deriving DecidableEq, Repr

/-- A row of the `request_attachments` table (timestamp omitted). -/
structure AttachmentRow where
  id : String
  request_id : String
  file_url : String
  filename : String
  file_size : Option Nat
  mime_type : Option String
  uploaded_by : UserId
deriving DecidableEq, Repr

/-- An insert into the `request_activity` table, as performed by the
triggers: request_id, user_id, activity_type, old_value, new_value
(`id` and `created_at` are database defaults). -/
structure ActivityIns where
  request_id : String
  user_id : UserId
  activity_type : String
  old_value : Option String
  new_value : Option String
deriving DecidableEq, Repr

/-! ### The client-side permissions hook (`src/hooks/use-permissions.ts`) -/

/-- The state exposed by the auth context to the hook: the current auth
user (its id) and the current profile, each possibly null. -/
structure AuthState where
  user : Option UserId
  profile : Option Profile
deriving Repr

/-- The record of capability flags and per-request predicates returned by
`usePermissions`. -/
structure Permissions where
  role : Option UserRole
  isAdmin : Bool
  isTeamMember : Bool
  isUser : Bool
  isGuest : Bool
  canCreateRequest : Bool
  canViewAllRequests : Bool
  canEditAnyRequest : Bool
  canDeleteAnyRequest : Bool
  canEditRequest : UserId → Option UserId → Bool
  canDeleteRequest : UserId → Bool
  canCommentOnRequest : UserId → Bool
  canViewRequest : UserId → Bool
  canManageUsers : Bool

/-- Shallow embedding of the `usePermissions` hook
(`src/hooks/use-permissions.ts`): each flag and closure is translated
line by line from the TypeScript source. -/
def usePermissions (st : AuthState) : Permissions :=
  let role : Option UserRole := st.profile.map Profile.role
  let isAdmin : Bool := role == some UserRole.admin
  let isTeamMember : Bool := role == some UserRole.team_member
  let isUser : Bool := role == some UserRole.user
  let isGuest : Bool := role == some UserRole.guest
  { role := role
    isAdmin := isAdmin
    isTeamMember := isTeamMember
    isUser := isUser
    isGuest := isGuest
    canCreateRequest := isAdmin || isTeamMember || isUser
    canViewAllRequests := isAdmin || isTeamMember
    canEditAnyRequest := isAdmin
    canDeleteAnyRequest := isAdmin
    canEditRequest := fun createdBy assignedTo =>
      match st.user with
      | none => false
      | some uid =>
        if isAdmin then true
        else if isTeamMember && assignedTo == some uid then true
        else createdBy == uid
    canDeleteRequest := fun createdBy =>
      match st.user with
      | none => false
      | some uid =>
        if isAdmin then true
        else createdBy == uid
    canCommentOnRequest := fun createdBy =>
      match st.user with
      | none => false
      | some uid =>
        if isGuest then false
        else if isAdmin || isTeamMember then true
        else createdBy == uid
    canViewRequest := fun createdBy =>
      match st.user with
      | none => false
      | some uid =>
        if isAdmin || isTeamMember then true
        else createdBy == uid
    canManageUsers := isAdmin }

/-! ### Row-level-security policies (`requests` migration) -/

/-- `EXISTS (SELECT 1 FROM profiles WHERE id = auth.uid() AND role IN rs)`:
the subquery pattern every role-based policy uses. -/
def roleAmong (uid : UserId) (ps : List Profile) (rs : List UserRole) : Bool :=
  ps.any fun p => p.id == uid && rs.contains p.role

/-- Policy "Users can read own requests": `created_by = auth.uid()`. -/
def polRequestsSelectOwn (uid : UserId) (r : RequestRow) : Bool :=
  r.created_by == uid

/-- Policy "Admins and team members can read all requests". -/
def polRequestsSelectStaff (uid : UserId) (ps : List Profile) : Bool :=
  roleAmong uid ps [UserRole.admin, UserRole.team_member]

/-- The SELECT decision on a `requests` row: the OR of the two permissive
SELECT policies. -/
def requestsSelectAllowed (uid : UserId) (ps : List Profile) (r : RequestRow) : Bool :=
  polRequestsSelectOwn uid r || polRequestsSelectStaff uid ps

/-- Policy "Authenticated users can create requests":
`created_by = auth.uid() AND role IN (admin, team_member, user)`. -/
def requestsInsertAllowed (uid : UserId) (ps : List Profile) (r : RequestRow) : Bool :=
  r.created_by == uid && roleAmong uid ps [UserRole.admin, UserRole.team_member, UserRole.user]

/-- Policy "Users can update own requests" (USING and WITH CHECK are the
same predicate). -/
def polRequestsUpdateOwn (uid : UserId) (r : RequestRow) : Bool :=
  r.created_by == uid

/-- Policy "Admins can update any request". -/
def polRequestsUpdateAdmin (uid : UserId) (ps : List Profile) : Bool :=
  roleAmong uid ps [UserRole.admin]

/-- Policy "Team members can update assigned requests". -/
def polRequestsUpdateTeam (uid : UserId) (ps : List Profile) (r : RequestRow) : Bool :=
  r.assigned_to == some uid && roleAmong uid ps [UserRole.team_member]

/-- The UPDATE decision: the old row must pass some policy's USING and the
new row some policy's WITH CHECK (permissive policies are OR-ed). -/
def requestsUpdateAllowed (uid : UserId) (ps : List Profile) (oldR newR : RequestRow) : Bool :=
  (polRequestsUpdateOwn uid oldR || polRequestsUpdateAdmin uid ps || polRequestsUpdateTeam uid ps oldR)
    && (polRequestsUpdateOwn uid newR || polRequestsUpdateAdmin uid ps || polRequestsUpdateTeam uid ps newR)

/-- The DELETE decision on a `requests` row: "Users can delete own
requests" OR "Admins can delete any request". -/
def requestsDeleteAllowed (uid : UserId) (ps : List Profile) (r : RequestRow) : Bool :=
  r.created_by == uid || roleAmong uid ps [UserRole.admin]

/-- Policy "Users can insert comments on viewable requests":
`user_id = auth.uid()` and the parent request is the requester's own or
the requester is admin/team_member. -/
def commentsInsertAllowed (uid : UserId) (ps : List Profile) (c : CommentRow) (req : RequestRow) : Bool :=
  c.user_id == uid
    && (req.created_by == uid || roleAmong uid ps [UserRole.admin, UserRole.team_member])

/-- Policy "Users can read comments for viewable requests". -/
def commentsSelectAllowed (uid : UserId) (ps : List Profile) (req : RequestRow) : Bool :=
  req.created_by == uid || roleAmong uid ps [UserRole.admin, UserRole.team_member]

/-- Policy "Users can read activity for viewable requests". -/
def activitySelectAllowed (uid : UserId) (ps : List Profile) (req : RequestRow) : Bool :=
  req.created_by == uid || roleAmong uid ps [UserRole.admin, UserRole.team_member]

/-- Policy "System can insert activity": `user_id = auth.uid()`. -/
def activityInsertAllowed (uid : UserId) (a : ActivityIns) : Bool :=
  a.user_id == uid

/-! ### The policy catalog of the request-tables migration -/

/-- Tables of the schema. -/
inductive Table
  | profiles
  | requests
  | request_attachments
  | request_comments
  | request_activity
deriving DecidableEq, Repr

/-- SQL commands a policy or an application query may carry. -/
inductive SqlCmd
  | select
  | insert
  | update
  | delete
deriving DecidableEq, Repr

/-- Name, table and command of one RLS policy. -/
structure PolicyDecl where
  pname : String
  table : Table
  cmd : SqlCmd
deriving DecidableEq, Repr

/-- Every policy declared by the request-tables migration, in source
order. -/
def requestTablesPolicies : List PolicyDecl :=
  [ ⟨"Users can read own requests", Table.requests, SqlCmd.select⟩,
    ⟨"Admins and team members can read all requests", Table.requests, SqlCmd.select⟩,
    ⟨"Authenticated users can create requests", Table.requests, SqlCmd.insert⟩,
    ⟨"Users can update own requests", Table.requests, SqlCmd.update⟩,
    ⟨"Admins can update any request", Table.requests, SqlCmd.update⟩,
    ⟨"Team members can update assigned requests", Table.requests, SqlCmd.update⟩,
    ⟨"Users can delete own requests", Table.requests, SqlCmd.delete⟩,
    ⟨"Admins can delete any request", Table.requests, SqlCmd.delete⟩,
    ⟨"Users can read attachments for viewable requests", Table.request_attachments, SqlCmd.select⟩,
    ⟨"Users can insert attachments for editable requests", Table.request_attachments, SqlCmd.insert⟩,
    ⟨"Users can delete own attachments", Table.request_attachments, SqlCmd.delete⟩,
    ⟨"Admins can delete any attachment", Table.request_attachments, SqlCmd.delete⟩,
    ⟨"Users can read comments for viewable requests", Table.request_comments, SqlCmd.select⟩,
    ⟨"Users can insert comments on viewable requests", Table.request_comments, SqlCmd.insert⟩,
    ⟨"Users can update own comments", Table.request_comments, SqlCmd.update⟩,
    ⟨"Users can delete own comments", Table.request_comments, SqlCmd.delete⟩,
    ⟨"Admins can delete any comment", Table.request_comments, SqlCmd.delete⟩,
    ⟨"Users can read activity for viewable requests", Table.request_activity, SqlCmd.select⟩,
    ⟨"System can insert activity", Table.request_activity, SqlCmd.insert⟩ ]

/-! ### Audit triggers (`requests` migration) -/

/-- The text rendering of a `request_status` value (`::text` cast). -/
def statusText : RequestStatus → String
  | RequestStatus.new => "new"
  | RequestStatus.in_progress => "in_progress"
  | RequestStatus.under_review => "under_review"
  | RequestStatus.completed => "completed"
  | RequestStatus.rejected => "rejected"

/-- The text rendering of a `request_priority` value (`::text` cast). -/
def priorityText : RequestPriority → String
  | RequestPriority.normal => "normal"
  | RequestPriority.high => "high"
  | RequestPriority.urgent => "urgent"

/-- Trigger function `log_request_created`: after a request INSERT, one
activity row with type `request_created`, actor the creator, new value
the title. -/
def log_request_created (r : RequestRow) : List ActivityIns :=
  [⟨r.id, r.created_by, "request_created", none, some r.title⟩]

/-- Trigger function `log_request_status_change`: after a request
UPDATE, one activity row per field among status, priority, assigned_to
and due_date whose value is distinct from the old one, with the acting
user `auth.uid()` as actor (`IS DISTINCT FROM` is inequality on
nullable values, which `Option` equality models). -/
def log_request_status_change (oldR newR : RequestRow) (actor : UserId) : List ActivityIns :=
  (if oldR.status ≠ newR.status then
    [⟨newR.id, actor, "status_changed", some (statusText oldR.status), some (statusText newR.status)⟩]
   else [])
  ++ (if oldR.priority ≠ newR.priority then
    [⟨newR.id, actor, "priority_changed", some (priorityText oldR.priority), some (priorityText newR.priority)⟩]
   else [])
  ++ (if oldR.assigned_to ≠ newR.assigned_to then
    [⟨newR.id, actor, "assignment_changed", oldR.assigned_to, newR.assigned_to⟩]
   else [])
  ++ (if oldR.due_date ≠ newR.due_date then
    [⟨newR.id, actor, "due_date_changed", oldR.due_date, newR.due_date⟩]
   else [])

/-- Trigger function `log_file_upload`: after an attachment INSERT, one
activity row with type `file_uploaded`, actor the uploader, new value
the filename. -/
def log_file_upload (a : AttachmentRow) : List ActivityIns :=
  [⟨a.request_id, a.uploaded_by, "file_uploaded", none, some a.filename⟩]

/-! ### Mutations the application issues, and the activity they generate -/

/-- The data-modifying operations the application code performs against
the database (from the request pages): request insert, request update,
request delete, comment insert, attachment insert. -/
inductive Mutation
  | insertRequest (r : RequestRow)
  | updateRequest (oldR newR : RequestRow) (actor : UserId)
  | deleteRequest (id : String)
  | insertComment (c : CommentRow)
  | insertAttachment (a : AttachmentRow)

/-- The activity rows the database triggers append for one mutation:
`on_request_created`, `on_request_changed` and `on_file_uploaded` are
the only triggers that write `request_activity`. -/
def triggerActivity : Mutation → List ActivityIns
  | Mutation.insertRequest r => log_request_created r
  | Mutation.updateRequest oldR newR actor => log_request_status_change oldR newR actor
  | Mutation.deleteRequest _ => []
  | Mutation.insertComment _ => []
  | Mutation.insertAttachment a => log_file_upload a

/-- The `request_activity` rows present after a run of mutations: the
application never writes the table, so its contents are exactly the
concatenation of the trigger outputs. -/
def activityTrace (ms : List Mutation) : List ActivityIns :=
  ms.flatMap triggerActivity

/-- Every database call application code issues, as (table, command)
pairs, enumerated from the source: `use-requests` (select, twice), the
request detail page (request/comments/activity/profiles selects, status
and priority updates, comment insert, request delete), and the
new-request page (request insert and the returning select). -/
def appDatabaseCalls : List (Table × SqlCmd) :=
  [ (Table.requests, SqlCmd.select),
    (Table.requests, SqlCmd.select),
    (Table.requests, SqlCmd.select),
    (Table.request_comments, SqlCmd.select),
    (Table.request_activity, SqlCmd.select),
    (Table.profiles, SqlCmd.select),
    (Table.requests, SqlCmd.update),
    (Table.requests, SqlCmd.update),
    (Table.request_comments, SqlCmd.insert),
    (Table.requests, SqlCmd.delete),
    (Table.requests, SqlCmd.insert),
    (Table.requests, SqlCmd.select) ]

/-! ### The request detail page (`src/app/reque/request/[id]/page.tsx`) -/

/-- What the request detail page renders for a given auth state and
request: which gated controls appear, and the option values of the two
update selects. -/
structure RequestDetailView where
  showDeleteButton : Bool
  showCommentCard : Bool
  showUpdateStatusCard : Bool
  statusOptions : List String
  priorityOptions : List String
deriving Repr

/-- Shallow embedding of `RequestDetailContent`: `canEdit`, `canDelete`
and `canComment` are computed from the hook exactly as on the page, the
delete button is gated by `canDelete`, the add-comment card by
`canComment`, and the Update Status card (holding the
`handleStatusChange` and `handlePriorityChange` selects) by `canEdit`. -/
def renderRequestDetail (st : AuthState) (req : RequestRow) : RequestDetailView :=
  let perms := usePermissions st
  { showDeleteButton := perms.canDeleteRequest req.created_by
    showCommentCard := perms.canCommentOnRequest req.created_by
    showUpdateStatusCard := perms.canEditRequest req.created_by req.assigned_to
    statusOptions := ["new", "in_progress", "under_review", "completed", "rejected"]
    priorityOptions := ["normal", "high", "urgent"] }

/-- `handleStatusChange`: the page updates only the `status` column of
the displayed request. -/
def handleStatusChange (req : RequestRow) (newStatus : RequestStatus) : RequestRow :=
  { req with status := newStatus }

/-- `handlePriorityChange`: the page updates only the `priority` column
of the displayed request. -/
def handlePriorityChange (req : RequestRow) (newPriority : RequestPriority) : RequestRow :=
  { req with priority := newPriority }

/-! ### The new-request form (`src/app/reque/new/page.tsx`) -/

/-- The `requests` insert built by the new-request form's
`handleSubmit`: trimmed title, trimmed description or null, the chosen
priority, status fixed to `new`, the optional due date, and the current
user as creator. -/
def buildNewRequestInsert (title description : String) (priority : RequestPriority)
    (dueDate : Option String) (uid : UserId) : RequestRow :=
  { id := ""
    title := title.trim
    description := if description.trim = "" then none else some description.trim
    status := RequestStatus.new
    priority := priority
    due_date := dueDate
    created_by := uid
    assigned_to := none }

/-- The status values offered by the detail page's status select, in
source order. -/
def uiStatusOptionValues : List String :=
  ["new", "in_progress", "under_review", "completed", "rejected"]

/-- The priority values offered by the detail page's (and the
new-request form's) priority select, in source order. -/
def uiPriorityOptionValues : List String :=
  ["normal", "high", "urgent"]

/-- The labels of the `request_status` Postgres enum, in declaration
order. -/
def dbStatusEnumValues : List String :=
  ["new", "in_progress", "under_review", "completed", "rejected"]

/-- The labels of the `request_priority` Postgres enum, in declaration
order. -/
def dbPriorityEnumValues : List String :=
  ["normal", "high", "urgent"]

/-- All values of `RequestStatus`. -/
def allStatuses : List RequestStatus :=
  [RequestStatus.new, RequestStatus.in_progress, RequestStatus.under_review,
   RequestStatus.completed, RequestStatus.rejected]

/-- All values of `RequestPriority`. -/
def allPriorities : List RequestPriority :=
  [RequestPriority.normal, RequestPriority.high, RequestPriority.urgent]

/-! ### Profile creation on signup (`handle_new_user`) -/

/-- A freshly inserted `auth.users` row as the trigger sees it: id,
email, and the `full_name` and `role` fields of
`raw_user_meta_data` (`->>` yields text or SQL NULL). -/
structure NewAuthUser where
  id : UserId
  email : String
  meta_full_name : Option String
  meta_role : Option String
deriving DecidableEq, Repr

/-- The `text::user_role` cast: succeeds exactly on the four enum
labels, raises `invalid input value for enum` otherwise. -/
def castUserRole : String → Option UserRole
  | "admin" => some UserRole.admin
  | "team_member" => some UserRole.team_member
  | "user" => some UserRole.user
  | "guest" => some UserRole.guest
  | _ => none

/-- The profile row `handle_new_user` inserts. -/
structure ProfileIns where
  id : UserId
  email : String
  full_name : String
  role : UserRole
deriving DecidableEq, Repr

/-- Outcome of running the `on_auth_user_created` trigger: the profile
row inserted (none when no row was inserted), and whether the error
aborted the surrounding auth-user insert. -/
structure HandleNewUserResult where
  inserted : Option ProfileIns
  aborted : Bool
deriving DecidableEq, Repr

/-- `handle_new_user`, first version (auth-tables migration): insert a
profile with role `COALESCE((meta->>'role')::user_role, 'user')`. The
enum cast of a present but invalid label raises, and with no exception
handler the error aborts the auth-user creation; a duplicate id also
aborts (unique violation). -/
def handle_new_user_v1 (existing : List ProfileIns) (u : NewAuthUser) : HandleNewUserResult :=
  match u.meta_role with
  | none =>
    if existing.any (fun p => p.id == u.id) then ⟨none, true⟩
    else ⟨some ⟨u.id, u.email, u.meta_full_name.getD "", UserRole.user⟩, false⟩
  | some s =>
    match castUserRole s with
    | some r =>
      if existing.any (fun p => p.id == u.id) then ⟨none, true⟩
      else ⟨some ⟨u.id, u.email, u.meta_full_name.getD "", r⟩, false⟩
    | none => ⟨none, true⟩

/-- `handle_new_user`, latest version
(`fix_profile_creation_rls_policies` migration): same insert but with
`ON CONFLICT (id) DO NOTHING` and an `EXCEPTION WHEN others` handler
that logs a warning and returns the new auth row, so neither a
conflicting nor a failing insert aborts the auth-user creation. -/
def handle_new_user_v2 (existing : List ProfileIns) (u : NewAuthUser) : HandleNewUserResult :=
  match u.meta_role with
  | none =>
    if existing.any (fun p => p.id == u.id) then ⟨none, false⟩
    else ⟨some ⟨u.id, u.email, u.meta_full_name.getD "", UserRole.user⟩, false⟩
  | some s =>
    match castUserRole s with
    | some r =>
      if existing.any (fun p => p.id == u.id) then ⟨none, false⟩
      else ⟨some ⟨u.id, u.email, u.meta_full_name.getD "", r⟩, false⟩
    | none => ⟨none, false⟩

/-! ### Helper lemmas: computing the hook's per-request predicates -/

/-- `canEditRequest` unfolded. -/
theorem canEditRequest_eq (st : AuthState) (cb : UserId) (asn : Option UserId) :
    (usePermissions st).canEditRequest cb asn =
      match st.user with
      | none => false
      | some uid =>
        if st.profile.map Profile.role == some UserRole.admin then true
        else if (st.profile.map Profile.role == some UserRole.team_member) && asn == some uid then true
        else cb == uid := rfl

/-- `canDeleteRequest` unfolded. -/
theorem canDeleteRequest_eq (st : AuthState) (cb : UserId) :
    (usePermissions st).canDeleteRequest cb =
      match st.user with
      | none => false
      | some uid =>
        if st.profile.map Profile.role == some UserRole.admin then true
        else cb == uid := rfl

/-- `canCommentOnRequest` unfolded. -/
theorem canCommentOnRequest_eq (st : AuthState) (cb : UserId) :
    (usePermissions st).canCommentOnRequest cb =
      match st.user with
      | none => false
      | some uid =>
        if st.profile.map Profile.role == some UserRole.guest then false
        else if (st.profile.map Profile.role == some UserRole.admin)
            || (st.profile.map Profile.role == some UserRole.team_member) then true
        else cb == uid := rfl

/-- `canViewRequest` unfolded. -/
theorem canViewRequest_eq (st : AuthState) (cb : UserId) :
    (usePermissions st).canViewRequest cb =
      match st.user with
      | none => false
      | some uid =>
        if (st.profile.map Profile.role == some UserRole.admin)
            || (st.profile.map Profile.role == some UserRole.team_member) then true
        else cb == uid := rfl

/-- `role` returned by the hook unfolded. -/
theorem hookRole_eq (st : AuthState) :
    (usePermissions st).role = st.profile.map Profile.role := rfl

/-- Claim C3: the permission evaluator is a pure function of the role
and the user id: two auth states agreeing on the current user id and on
the profile's role yield identical flags, and per-request predicates
that agree on every (createdBy, assignedTo) argument. -/
theorem usePermissions_pure (st₁ st₂ : AuthState)
    (hu : st₁.user = st₂.user)
    (hr : st₁.profile.map Profile.role = st₂.profile.map Profile.role) :
    (usePermissions st₁).role = (usePermissions st₂).role
    ∧ (usePermissions st₁).isAdmin = (usePermissions st₂).isAdmin
    ∧ (usePermissions st₁).isTeamMember = (usePermissions st₂).isTeamMember
    ∧ (usePermissions st₁).isUser = (usePermissions st₂).isUser
    ∧ (usePermissions st₁).isGuest = (usePermissions st₂).isGuest
    ∧ (usePermissions st₁).canCreateRequest = (usePermissions st₂).canCreateRequest
    ∧ (usePermissions st₁).canViewAllRequests = (usePermissions st₂).canViewAllRequests
    ∧ (usePermissions st₁).canEditAnyRequest = (usePermissions st₂).canEditAnyRequest
    ∧ (usePermissions st₁).canDeleteAnyRequest = (usePermissions st₂).canDeleteAnyRequest
    ∧ (∀ cb asn, (usePermissions st₁).canEditRequest cb asn = (usePermissions st₂).canEditRequest cb asn)
    ∧ (∀ cb, (usePermissions st₁).canDeleteRequest cb = (usePermissions st₂).canDeleteRequest cb)
    ∧ (∀ cb, (usePermissions st₁).canCommentOnRequest cb = (usePermissions st₂).canCommentOnRequest cb)
    ∧ (∀ cb, (usePermissions st₁).canViewRequest cb = (usePermissions st₂).canViewRequest cb)
    ∧ (usePermissions st₁).canManageUsers = (usePermissions st₂).canManageUsers := by
  refine ⟨?_, ?_, ?_, ?_, ?_, ?_, ?_, ?_, ?_, ?_, ?_, ?_, ?_, ?_⟩ <;>
    simp only [usePermissions, hu, hr] <;> intros <;> trivial

/-- Witness for C3: two concretely different auth states (different
emails and avatar, same user id and role) produce identical
permissions. -/
theorem usePermissions_pure_witness :
    (usePermissions ⟨some "u1", some ⟨"u1", "a@x.io", some "Ann", none, UserRole.user⟩⟩).role
      = (usePermissions ⟨some "u1", some ⟨"u1", "b@y.io", none, some "pic", UserRole.user⟩⟩).role
    ∧ (∀ cb asn,
        (usePermissions ⟨some "u1", some ⟨"u1", "a@x.io", some "Ann", none, UserRole.user⟩⟩).canEditRequest cb asn
          = (usePermissions ⟨some "u1", some ⟨"u1", "b@y.io", none, some "pic", UserRole.user⟩⟩).canEditRequest cb asn) := by
  have h := usePermissions_pure
    ⟨some "u1", some ⟨"u1", "a@x.io", some "Ann", none, UserRole.user⟩⟩
    ⟨some "u1", some ⟨"u1", "b@y.io", none, some "pic", UserRole.user⟩⟩
    rfl rfl
  exact ⟨h.1, h.2.2.2.2.2.2.2.2.2.1⟩

/-- Modelled from the spec: the authentication/session provider
(`contexts/auth-context`, not present under `src/`) "wraps the backend
auth client; exposes current user and profile to the rest of the app".
The profile it exposes is the signed-in user's own profile, so when no
user is authenticated it exposes no profile either. -/
def AuthState.consistent (st : AuthState) : Prop :=
  st.user = none → st.profile = none

/-- Claim C8: with no authenticated user, every per-request capability
of the hook is false on all arguments, and the returned role is null. -/
theorem signedOut_no_capabilities (st : AuthState) (hc : st.consistent)
    (hu : st.user = none) (cb : UserId) (asn : Option UserId) :
    (usePermissions st).canEditRequest cb asn = false
    ∧ (usePermissions st).canDeleteRequest cb = false
    ∧ (usePermissions st).canCommentOnRequest cb = false
    ∧ (usePermissions st).canViewRequest cb = false
    ∧ (usePermissions st).role = none := by
  refine ⟨?_, ?_, ?_, ?_, ?_⟩
  · rw [canEditRequest_eq, hu]
  · rw [canDeleteRequest_eq, hu]
  · rw [canCommentOnRequest_eq, hu]
  · rw [canViewRequest_eq, hu]
  · rw [hookRole_eq, hc hu]; rfl

/-- Witness for C8: the signed-out state grants nothing. -/
theorem signedOut_no_capabilities_witness :
    (usePermissions ⟨none, none⟩).canEditRequest "u1" (some "u2") = false
    ∧ (usePermissions ⟨none, none⟩).canDeleteRequest "u1" = false
    ∧ (usePermissions ⟨none, none⟩).canCommentOnRequest "u1" = false
    ∧ (usePermissions ⟨none, none⟩).canViewRequest "u1" = false
    ∧ (usePermissions ⟨none, none⟩).role = none :=
  signedOut_no_capabilities ⟨none, none⟩ (fun _ => rfl) rfl "u1" (some "u2")

/-- Claim C9: stronger capabilities imply view: whenever the hook grants
edit, delete or comment on a request, it also grants view of that
request. -/
theorem capabilities_imply_view (st : AuthState) (cb : UserId) (asn : Option UserId) :
    ((usePermissions st).canEditRequest cb asn = true → (usePermissions st).canViewRequest cb = true)
    ∧ ((usePermissions st).canDeleteRequest cb = true → (usePermissions st).canViewRequest cb = true)
    ∧ ((usePermissions st).canCommentOnRequest cb = true → (usePermissions st).canViewRequest cb = true) := by
  rw [canEditRequest_eq, canDeleteRequest_eq, canCommentOnRequest_eq, canViewRequest_eq]
  cases hu : st.user with
  | none => simp
  | some uid =>
    cases hA : (st.profile.map Profile.role == some UserRole.admin) with
    | true => simp [hA]
    | false =>
      cases hT : (st.profile.map Profile.role == some UserRole.team_member) with
      | true => simp [hA, hT]
      | false =>
        cases hG : (st.profile.map Profile.role == some UserRole.guest) <;>
          simp [hA, hT, hG]

/-- Witness for C9: a plain user editing their own request can also view
it. -/
theorem capabilities_imply_view_witness :
    (usePermissions ⟨some "u1", some ⟨"u1", "a@x.io", none, none, UserRole.user⟩⟩).canViewRequest "u1" = true :=
  (capabilities_imply_view ⟨some "u1", some ⟨"u1", "a@x.io", none, none, UserRole.user⟩⟩ "u1" none).1
    (by decide)

/-! ### Bridging lemmas for the role subquery -/

/-- The `EXISTS` subquery holds exactly when some profile row carries the
requester's id and one of the listed roles. -/
theorem roleAmong_true_iff (uid : UserId) (ps : List Profile) (rs : List UserRole) :
    roleAmong uid ps rs = true ↔ ∃ p ∈ ps, p.id = uid ∧ p.role ∈ rs := by
  simp [roleAmong]

/-- When the profile table's view of the requester agrees with a single
role (each singleton subquery decides exactly that role), the subquery
over any role list reduces to membership of that role. -/
theorem roleAmong_eq_any (uid : UserId) (ps : List Profile) (role? : Option UserRole)
    (hA : ∀ r, (roleAmong uid ps [r] = true ↔ role? = some r)) (rs : List UserRole) :
    roleAmong uid ps rs = rs.any fun r => role? == some r := by
  rw [Bool.eq_iff_iff, roleAmong_true_iff, List.any_eq_true]
  constructor
  · rintro ⟨p, hp, hid, hrole⟩
    exact ⟨p.role, hrole,
      by simp [(hA p.role).mp ((roleAmong_true_iff uid ps [p.role]).mpr ⟨p, hp, hid, by simp⟩)]⟩
  · rintro ⟨r, hr, hbeq⟩
    have hsome : role? = some r := by simpa using hbeq
    rcases (roleAmong_true_iff uid ps [r]).mp ((hA r).mpr hsome) with ⟨p, hp, hid, hrole⟩
    simp at hrole
    exact ⟨p, hp, hid, hrole ▸ hr⟩

/-- Claim C1, amended: for a non-guest requester, every capability of
the client hook equals the decision of the corresponding row-level
security policy on the same row: SELECT for `canViewRequest`, UPDATE
for `canEditRequest`, DELETE for `canDeleteRequest`, comment INSERT for
`canCommentOnRequest` (comment rows authored by the requester), request
INSERT for `canCreateRequest` (rows created by the requester), and the
staff read-all policy for `canViewAllRequests`. For a guest requester,
`canCommentOnRequest` is strictly more restrictive than the comment
INSERT policy. -/
theorem hook_matches_rls (st : AuthState) (uid : UserId) (role? : Option UserRole)
    (ps : List Profile)
    (hu : st.user = some uid)
    (hr : st.profile.map Profile.role = role?)
    (hA : ∀ r, (roleAmong uid ps [r] = true ↔ role? = some r))
    (req : RequestRow) (c : CommentRow) (hcu : c.user_id = uid)
    (rIns : RequestRow) (hrIns : rIns.created_by = uid) :
    ((usePermissions st).canViewRequest req.created_by = requestsSelectAllowed uid ps req)
    ∧ ((usePermissions st).canEditRequest req.created_by req.assigned_to
        = requestsUpdateAllowed uid ps req req)
    ∧ ((usePermissions st).canDeleteRequest req.created_by = requestsDeleteAllowed uid ps req)
    ∧ ((usePermissions st).canCreateRequest = requestsInsertAllowed uid ps rIns)
    ∧ ((usePermissions st).canViewAllRequests = polRequestsSelectStaff uid ps)
    ∧ (role? ≠ some UserRole.guest →
        (usePermissions st).canCommentOnRequest req.created_by = commentsInsertAllowed uid ps c req)
    ∧ (role? = some UserRole.guest →
        (usePermissions st).canCommentOnRequest req.created_by = false) := by
  have hR := roleAmong_eq_any uid ps role? hA
  rw [canViewRequest_eq, canEditRequest_eq, canDeleteRequest_eq, canCommentOnRequest_eq]
  simp only [usePermissions, hu, hr]
  unfold requestsSelectAllowed polRequestsSelectOwn polRequestsSelectStaff
    requestsUpdateAllowed polRequestsUpdateOwn polRequestsUpdateAdmin polRequestsUpdateTeam
    requestsDeleteAllowed commentsInsertAllowed requestsInsertAllowed
  rw [hcu, hrIns]
  simp only [hR]
  refine ⟨?_, ?_, ?_, ?_, ?_, ?_, ?_⟩
  · rcases role? with _ | r
    · cases hcb : (req.created_by == uid) <;> simp [hcb]
    · cases r <;> cases hcb : (req.created_by == uid) <;> simp [hcb]
  · rcases role? with _ | r
    · cases hcb : (req.created_by == uid) <;>
        cases hasn : (req.assigned_to == some uid) <;> simp [hcb, hasn]
    · cases r <;> cases hcb : (req.created_by == uid) <;>
        cases hasn : (req.assigned_to == some uid) <;> simp [hcb, hasn]
  · rcases role? with _ | r
    · cases hcb : (req.created_by == uid) <;> simp [hcb]
    · cases r <;> cases hcb : (req.created_by == uid) <;> simp [hcb]
  · rcases role? with _ | r
    · simp
    · cases r <;> simp [Bool.or_assoc]
  · rcases role? with _ | r
    · simp
    · cases r <;> simp [Bool.or_assoc]
  · intro hg
    rcases role? with _ | r
    · cases hcb : (req.created_by == uid) <;> simp [hcb]
    · cases r <;> first
      | exact absurd rfl hg
      | (cases hcb : (req.created_by == uid) <;> simp [hcb])
  · intro hg
    rcases role? with _ | r
    · exact Option.noConfusion hg
    · injection hg with h
      subst h
      rfl

/-- Counterexample to Claim C1 as stated: a guest who created the
request may insert a comment under the comment INSERT policy, yet the
hook's `canCommentOnRequest` denies it. -/
theorem hook_matches_rls_counterexample :
    (usePermissions ⟨some "g1", some ⟨"g1", "g@x.io", none, none, UserRole.guest⟩⟩).canCommentOnRequest "g1" = false
    ∧ commentsInsertAllowed "g1" [⟨"g1", "g@x.io", none, none, UserRole.guest⟩]
        ⟨"c1", "r1", "g1", "hello"⟩
        ⟨"r1", "t", none, RequestStatus.new, RequestPriority.normal, none, "g1", none⟩ = true := by
  exact ⟨rfl, rfl⟩

/-- Witness for C1 (amended): a concrete team-member requester assigned
to the request, where the view, edit and (non-guest) comment equalities
are discharged. -/
theorem hook_matches_rls_witness :
    ((usePermissions ⟨some "t1", some ⟨"t1", "t@x.io", none, none, UserRole.team_member⟩⟩).canViewRequest "u9"
        = requestsSelectAllowed "t1" [⟨"t1", "t@x.io", none, none, UserRole.team_member⟩]
            ⟨"r1", "t", none, RequestStatus.new, RequestPriority.normal, none, "u9", some "t1"⟩)
    ∧ ((usePermissions ⟨some "t1", some ⟨"t1", "t@x.io", none, none, UserRole.team_member⟩⟩).canEditRequest "u9" (some "t1")
        = requestsUpdateAllowed "t1" [⟨"t1", "t@x.io", none, none, UserRole.team_member⟩]
            ⟨"r1", "t", none, RequestStatus.new, RequestPriority.normal, none, "u9", some "t1"⟩
            ⟨"r1", "t", none, RequestStatus.new, RequestPriority.normal, none, "u9", some "t1"⟩)
    ∧ ((usePermissions ⟨some "t1", some ⟨"t1", "t@x.io", none, none, UserRole.team_member⟩⟩).canCommentOnRequest "u9"
        = commentsInsertAllowed "t1" [⟨"t1", "t@x.io", none, none, UserRole.team_member⟩]
            ⟨"c1", "r1", "t1", "hello"⟩
            ⟨"r1", "t", none, RequestStatus.new, RequestPriority.normal, none, "u9", some "t1"⟩) := by
  have h := hook_matches_rls
    ⟨some "t1", some ⟨"t1", "t@x.io", none, none, UserRole.team_member⟩⟩
    "t1" (some UserRole.team_member) [⟨"t1", "t@x.io", none, none, UserRole.team_member⟩]
    rfl rfl
    (by intro r; cases r <;> simp [roleAmong])
    ⟨"r1", "t", none, RequestStatus.new, RequestPriority.normal, none, "u9", some "t1"⟩
    ⟨"c1", "r1", "t1", "hello"⟩ rfl
    ⟨"r2", "t", none, RequestStatus.new, RequestPriority.normal, none, "t1", none⟩ rfl
  exact ⟨h.1, h.2.1, h.2.2.2.2.2.1 (by simp)⟩

/-- Counterexample to Claim C2 as stated: not every role can comment —
for the guest role there is no auth state and no request on which the
hook's `canCommentOnRequest` returns true. -/
theorem every_role_can_comment_counterexample :
    ¬ (∀ r : UserRole, ∃ (st : AuthState) (cb : UserId),
        st.user ≠ none ∧ (usePermissions st).role = some r
        ∧ (usePermissions st).canCommentOnRequest cb = true) := by
  intro h
  rcases h UserRole.guest with ⟨st, cb, hne, hrole, hcan⟩
  rw [hookRole_eq] at hrole
  rw [canCommentOnRequest_eq] at hcan
  cases hu : st.user with
  | none => exact hne hu
  | some uid => rw [hu] at hcan; simp [hrole] at hcan

/-- Claim C2, amended: admins, team members and plain users can comment
(the hook grants it and the comment INSERT policy admits the insert);
guests can never comment — the hook returns false for every guest on
every request. -/
theorem comment_capability_by_role :
    ((usePermissions ⟨some "a1", some ⟨"a1", "a@x.io", none, none, UserRole.admin⟩⟩).canCommentOnRequest "u9" = true
      ∧ commentsInsertAllowed "a1" [⟨"a1", "a@x.io", none, none, UserRole.admin⟩]
          ⟨"c1", "r1", "a1", "hi"⟩
          ⟨"r1", "t", none, RequestStatus.new, RequestPriority.normal, none, "u9", none⟩ = true)
    ∧ ((usePermissions ⟨some "t1", some ⟨"t1", "t@x.io", none, none, UserRole.team_member⟩⟩).canCommentOnRequest "u9" = true
      ∧ commentsInsertAllowed "t1" [⟨"t1", "t@x.io", none, none, UserRole.team_member⟩]
          ⟨"c2", "r1", "t1", "hi"⟩
          ⟨"r1", "t", none, RequestStatus.new, RequestPriority.normal, none, "u9", none⟩ = true)
    ∧ ((usePermissions ⟨some "u1", some ⟨"u1", "u@x.io", none, none, UserRole.user⟩⟩).canCommentOnRequest "u1" = true
      ∧ commentsInsertAllowed "u1" [⟨"u1", "u@x.io", none, none, UserRole.user⟩]
          ⟨"c3", "r2", "u1", "hi"⟩
          ⟨"r2", "t", none, RequestStatus.new, RequestPriority.normal, none, "u1", none⟩ = true)
    ∧ (∀ (st : AuthState) (cb : UserId), (usePermissions st).role = some UserRole.guest →
        (usePermissions st).canCommentOnRequest cb = false) := by
  refine ⟨⟨rfl, rfl⟩, ⟨rfl, rfl⟩, ⟨rfl, rfl⟩, ?_⟩
  intro st cb hrole
  rw [hookRole_eq] at hrole
  rw [canCommentOnRequest_eq]
  cases hu : st.user with
  | none => rfl
  | some uid => simp [hrole]

/-- Witness for C2 (amended): a concrete guest is denied commenting even
on a request they created. -/
theorem comment_capability_by_role_witness :
    (usePermissions ⟨some "g1", some ⟨"g1", "g@x.io", none, none, UserRole.guest⟩⟩).canCommentOnRequest "g1" = false :=
  comment_capability_by_role.2.2.2
    ⟨some "g1", some ⟨"g1", "g@x.io", none, none, UserRole.guest⟩⟩ "g1" rfl

/-- Claim C4: admins can edit any request and team members can edit
requests assigned to them, and the detail page's Update Status card
(which hosts the status and priority change controls) is shown exactly
when `canEditRequest` grants edit on the displayed request. -/
theorem admins_and_assignees_can_edit (st : AuthState) (uid : UserId)
    (hu : st.user = some uid) (cb : UserId) (asn : Option UserId) (req : RequestRow) :
    ((usePermissions st).role = some UserRole.admin →
      (usePermissions st).canEditRequest cb asn = true)
    ∧ ((usePermissions st).role = some UserRole.team_member → asn = some uid →
      (usePermissions st).canEditRequest cb asn = true)
    ∧ ((renderRequestDetail st req).showUpdateStatusCard
        = (usePermissions st).canEditRequest req.created_by req.assigned_to) := by
  refine ⟨?_, ?_, rfl⟩
  · intro h
    rw [hookRole_eq] at h
    rw [canEditRequest_eq, hu]
    simp [h]
  · intro h hasn
    rw [hookRole_eq] at h
    rw [canEditRequest_eq, hu]
    simp [h, hasn]

/-- Witness for C4: a concrete admin can edit a request they neither
created nor were assigned, and the Update Status card shows for them. -/
theorem admins_and_assignees_can_edit_witness :
    (usePermissions ⟨some "a1", some ⟨"a1", "a@x.io", none, none, UserRole.admin⟩⟩).canEditRequest "u9" none = true
    ∧ (renderRequestDetail ⟨some "a1", some ⟨"a1", "a@x.io", none, none, UserRole.admin⟩⟩
        ⟨"r1", "t", none, RequestStatus.new, RequestPriority.normal, none, "u9", none⟩).showUpdateStatusCard
      = (usePermissions ⟨some "a1", some ⟨"a1", "a@x.io", none, none, UserRole.admin⟩⟩).canEditRequest "u9" none := by
  have h := admins_and_assignees_can_edit
    ⟨some "a1", some ⟨"a1", "a@x.io", none, none, UserRole.admin⟩⟩ "a1" rfl "u9" none
    ⟨"r1", "t", none, RequestStatus.new, RequestPriority.normal, none, "u9", none⟩
  exact ⟨h.1 rfl, h.2.2⟩

/-- Claim C6: on a request update, the audit trigger inserts exactly one
record per changed field among status, priority, assigned_to and
due_date — with the matching activity type, the prior value as
old_value, the new value as new_value and the acting user as actor —
and no record for an unchanged field; every record it writes targets
the updated request, names the actor, and carries one of the four
types. -/
theorem status_change_trigger_logs_exactly (oldR newR : RequestRow) (actor : UserId) :
    ((log_request_status_change oldR newR actor).filter
        (fun a => a.activity_type == "status_changed")
      = if oldR.status ≠ newR.status then
          [⟨newR.id, actor, "status_changed", some (statusText oldR.status), some (statusText newR.status)⟩]
        else [])
    ∧ ((log_request_status_change oldR newR actor).filter
        (fun a => a.activity_type == "priority_changed")
      = if oldR.priority ≠ newR.priority then
          [⟨newR.id, actor, "priority_changed", some (priorityText oldR.priority), some (priorityText newR.priority)⟩]
        else [])
    ∧ ((log_request_status_change oldR newR actor).filter
        (fun a => a.activity_type == "assignment_changed")
      = if oldR.assigned_to ≠ newR.assigned_to then
          [⟨newR.id, actor, "assignment_changed", oldR.assigned_to, newR.assigned_to⟩]
        else [])
    ∧ ((log_request_status_change oldR newR actor).filter
        (fun a => a.activity_type == "due_date_changed")
      = if oldR.due_date ≠ newR.due_date then
          [⟨newR.id, actor, "due_date_changed", oldR.due_date, newR.due_date⟩]
        else [])
    ∧ (∀ a ∈ log_request_status_change oldR newR actor,
        a.request_id = newR.id ∧ a.user_id = actor
        ∧ a.activity_type ∈ ["status_changed", "priority_changed", "assignment_changed", "due_date_changed"]) := by
  by_cases h1 : oldR.status = newR.status <;>
    by_cases h2 : oldR.priority = newR.priority <;>
      by_cases h3 : oldR.assigned_to = newR.assigned_to <;>
        by_cases h4 : oldR.due_date = newR.due_date <;>
          (refine ⟨?_, ?_, ?_, ?_, ?_⟩ <;>
            simp [log_request_status_change, List.filter_append, h1, h2, h3, h4])

/-- Witness for C6: updating only the status from `new` to
`in_progress` logs exactly the one status record and nothing for the
unchanged fields. -/
theorem status_change_trigger_logs_exactly_witness :
    ((log_request_status_change
        ⟨"r1", "T", none, RequestStatus.new, RequestPriority.normal, none, "u1", none⟩
        ⟨"r1", "T", none, RequestStatus.in_progress, RequestPriority.normal, none, "u1", none⟩
        "t1").filter (fun a => a.activity_type == "status_changed")
      = [⟨"r1", "t1", "status_changed", some "new", some "in_progress"⟩])
    ∧ ((log_request_status_change
        ⟨"r1", "T", none, RequestStatus.new, RequestPriority.normal, none, "u1", none⟩
        ⟨"r1", "T", none, RequestStatus.in_progress, RequestPriority.normal, none, "u1", none⟩
        "t1").filter (fun a => a.activity_type == "priority_changed") = []) := by
  have h := status_change_trigger_logs_exactly
    ⟨"r1", "T", none, RequestStatus.new, RequestPriority.normal, none, "u1", none⟩
    ⟨"r1", "T", none, RequestStatus.in_progress, RequestPriority.normal, none, "u1", none⟩
    "t1"
  exact ⟨by simpa [statusText] using h.1, by simpa using h.2.1⟩

/-- Claim C7: enum membership is invariant: every status value is one of
the five statuses and every priority one of the three priorities, the
new-request form always inserts status `new`, and the database enum
labels and the UI select option values coincide exactly with those
enumerations. -/
theorem enum_membership_invariant :
    (∀ s : RequestStatus, s ∈ allStatuses)
    ∧ (∀ p : RequestPriority, p ∈ allPriorities)
    ∧ (∀ title description priority dueDate uid,
        (buildNewRequestInsert title description priority dueDate uid).status = RequestStatus.new)
    ∧ dbStatusEnumValues = allStatuses.map statusText
    ∧ uiStatusOptionValues = allStatuses.map statusText
    ∧ dbPriorityEnumValues = allPriorities.map priorityText
    ∧ uiPriorityOptionValues = allPriorities.map priorityText
    ∧ (∀ st req, (renderRequestDetail st req).statusOptions = allStatuses.map statusText
        ∧ (renderRequestDetail st req).priorityOptions = allPriorities.map priorityText)
    ∧ (∀ req s, (handleStatusChange req s).status ∈ allStatuses)
    ∧ (∀ req p, (handlePriorityChange req p).priority ∈ allPriorities) := by
  refine ⟨fun s => by cases s <;> simp [allStatuses],
    fun p => by cases p <;> simp [allPriorities],
    fun _ _ _ _ _ => rfl, rfl, rfl, rfl, rfl, fun _ _ => ⟨rfl, rfl⟩,
    fun _ s => by cases s <;> simp [handleStatusChange, allStatuses],
    fun _ p => by cases p <;> simp [handlePriorityChange, allPriorities]⟩

/-- Claim C5: the activity audit trail is append-only and written only
by triggers: every application database call touching
`request_activity` is a SELECT, the `request_activity` policies admit
only SELECT and INSERT, and every activity row produced by a run of
application mutations comes from one of the triggers
`log_request_created`, `log_request_status_change` or
`log_file_upload`. -/
theorem activity_append_only :
    (∀ q ∈ appDatabaseCalls, q.1 = Table.request_activity → q.2 = SqlCmd.select)
    ∧ (∀ pol ∈ requestTablesPolicies, pol.table = Table.request_activity →
        (pol.cmd = SqlCmd.select ∨ pol.cmd = SqlCmd.insert))
    ∧ (∀ (ms : List Mutation) (a : ActivityIns), a ∈ activityTrace ms →
        ∃ m ∈ ms, a ∈ triggerActivity m
          ∧ ((∃ r, a ∈ log_request_created r)
            ∨ (∃ oldR newR actor, a ∈ log_request_status_change oldR newR actor)
            ∨ (∃ att, a ∈ log_file_upload att))) := by
  refine ⟨by decide, by decide, ?_⟩
  intro ms a ha
  rw [activityTrace, List.mem_flatMap] at ha
  rcases ha with ⟨m, hm, hat⟩
  refine ⟨m, hm, hat, ?_⟩
  cases m with
  | insertRequest r => exact Or.inl ⟨r, hat⟩
  | updateRequest oldR newR actor => exact Or.inr (Or.inl ⟨oldR, newR, actor, hat⟩)
  | deleteRequest i => simp [triggerActivity] at hat
  | insertComment c => simp [triggerActivity] at hat
  | insertAttachment att => exact Or.inr (Or.inr ⟨att, hat⟩)

/-- Witness for C5: the single activity row left by a run consisting of
one request insert originates from `log_request_created`. -/
theorem activity_append_only_witness :
    ∃ m ∈ [Mutation.insertRequest ⟨"r1", "T", none, RequestStatus.new, RequestPriority.normal, none, "u1", none⟩],
      (⟨"r1", "u1", "request_created", none, some "T"⟩ : ActivityIns) ∈ triggerActivity m
        ∧ ((∃ r, (⟨"r1", "u1", "request_created", none, some "T"⟩ : ActivityIns) ∈ log_request_created r)
          ∨ (∃ oldR newR actor, (⟨"r1", "u1", "request_created", none, some "T"⟩ : ActivityIns) ∈ log_request_status_change oldR newR actor)
          ∨ (∃ att, (⟨"r1", "u1", "request_created", none, some "T"⟩ : ActivityIns) ∈ log_file_upload att)) :=
  activity_append_only.2.2
    [Mutation.insertRequest ⟨"r1", "T", none, RequestStatus.new, RequestPriority.normal, none, "u1", none⟩]
    ⟨"r1", "u1", "request_created", none, some "T"⟩
    (by simp [activityTrace, triggerActivity, log_request_created])

/-- Counterexample to Claim C10 as stated: with signup metadata role
`superadmin` (present but not a valid `user_role`), the latest
`handle_new_user` does not create a profile with role `user` — the enum
cast raises, the handler swallows the error, and no profile row is
inserted at all. -/
theorem handle_new_user_counterexample :
    ¬ ∃ p : ProfileIns,
        (handle_new_user_v2 [] ⟨"u1", "a@x.io", none, some "superadmin"⟩).inserted = some p := by
  rintro ⟨p, hp⟩
  have hnone : (handle_new_user_v2 [] ⟨"u1", "a@x.io", none, some "superadmin"⟩).inserted = none := rfl
  rw [hnone] at hp
  exact Option.noConfusion hp

/-- Claim C10, amended: the profile created for a new auth user carries
the metadata role whenever that field is present and a valid
`user_role` (including `admin`), and role `user` whenever the field is
absent; when the field is present but invalid the enum cast fails and
no profile row is created (in the first migration's version the error
aborts the auth-user creation). In the latest version a conflicting or
failing insert never aborts the auth-user creation. -/
theorem handle_new_user_role_assignment (existing : List ProfileIns) (u : NewAuthUser) :
    (u.meta_role = none → existing.any (fun p => p.id == u.id) = false →
        (handle_new_user_v2 existing u).inserted
          = some ⟨u.id, u.email, u.meta_full_name.getD "", UserRole.user⟩)
    ∧ (∀ s r, u.meta_role = some s → castUserRole s = some r →
        existing.any (fun p => p.id == u.id) = false →
        (handle_new_user_v2 existing u).inserted
          = some ⟨u.id, u.email, u.meta_full_name.getD "", r⟩)
    ∧ (∀ s, u.meta_role = some s → castUserRole s = none →
        (handle_new_user_v2 existing u).inserted = none)
    ∧ ((handle_new_user_v2 existing u).aborted = false)
    ∧ (∀ s, u.meta_role = some s → castUserRole s = none →
        (handle_new_user_v1 existing u).aborted = true) := by
  refine ⟨?_, ?_, ?_, ?_, ?_⟩
  · intro hm hconf
    simp [handle_new_user_v2, hm, hconf]
  · intro s r hm hcast hconf
    simp [handle_new_user_v2, hm, hcast, hconf]
  · intro s hm hcast
    simp [handle_new_user_v2, hm, hcast]
  · unfold handle_new_user_v2
    rcases hm : u.meta_role with _ | s
    · simp only
      split <;> rfl
    · simp only
      rcases hc : castUserRole s with _ | r
      · rfl
      · simp only
        split <;> rfl
  · intro s hm hcast
    simp [handle_new_user_v1, hm, hcast]

/-- Witness for C10 (amended): a signup with metadata role `admin`
yields an admin profile, and one with role `superadmin` yields no
profile yet does not abort. -/
theorem handle_new_user_role_assignment_witness :
    (handle_new_user_v2 [] ⟨"u1", "a@x.io", some "Ann", some "admin"⟩).inserted
      = some ⟨"u1", "a@x.io", "Ann", UserRole.admin⟩
    ∧ (handle_new_user_v2 [] ⟨"u2", "b@x.io", none, some "superadmin"⟩).inserted = none
    ∧ (handle_new_user_v2 [] ⟨"u2", "b@x.io", none, some "superadmin"⟩).aborted = false := by
  refine ⟨?_, ?_, ?_⟩
  · exact (handle_new_user_role_assignment [] ⟨"u1", "a@x.io", some "Ann", some "admin"⟩).2.1
      "admin" UserRole.admin rfl rfl rfl
  · exact (handle_new_user_role_assignment [] ⟨"u2", "b@x.io", none, some "superadmin"⟩).2.2.1
      "superadmin" rfl rfl
  · exact (handle_new_user_role_assignment [] ⟨"u2", "b@x.io", none, some "superadmin"⟩).2.2.2.1

end ReQue
